import Mathlib

/-!
Shallow embedding of the kumo system-check tool (main.go) and proofs about
its check runner, result formatting, event loop and entry point.

Strings are modelled as Lean strings; the byte-level Go string operations
(strings.Split, strings.TrimSpace, strings.Contains) are re-implemented
over the character list of a string with structural (fuel) recursion so
that every definition evaluates inside the kernel.  External command
execution is modelled by an environment mapping each command string to an
outcome (did the invocation fail, combined output), and wall-clock elapsed
time by a map from check to a duration in centiseconds.
-/

namespace Kumo

/-! ## String primitives (modelling the Go standard library calls) -/

/-- Whitespace trimming of a character list from both ends, modelling
Go strings.TrimSpace. -/
def trimL (l : List Char) : List Char :=
  ((l.dropWhile Char.isWhitespace).reverse.dropWhile Char.isWhitespace).reverse

/-- Whitespace trimming of a string, modelling Go strings.TrimSpace. -/
def strTrim (s : String) : String := ⟨trimL s.data⟩

/-- Fuel-driven splitting of a character list around each non-overlapping
occurrence of a non-empty separator, scanning left to right; `acc` holds the
characters of the current field in reverse.  Models Go strings.Split. -/
def splitOnFuel (sep : List Char) : Nat → List Char → List Char → List (List Char)
  | 0, rest, acc => [acc.reverse ++ rest]
  | _ + 1, [], acc => [acc.reverse]
  | fuel + 1, c :: cs, acc =>
    if sep.isPrefixOf (c :: cs) then
      acc.reverse :: splitOnFuel sep fuel (List.drop sep.length (c :: cs)) []
    else
      splitOnFuel sep fuel cs (c :: acc)

/-- Splitting a string around each occurrence of a non-empty separator,
modelling Go strings.Split (for the separators used by the program). -/
def strSplitOn (s sep : String) : List String :=
  (splitOnFuel sep.data (s.data.length + 1) s.data []).map fun l => ⟨l⟩

/-- Does the string contain the given character, modelling
Go strings.Contains with a one-character needle. -/
def strContainsChar (s : String) (c : Char) : Bool := s.data.contains c

/-- The decimal digit character for a value below ten. -/
def digitChar (d : Nat) : Char := Char.ofNat (48 + d)

/-- Fuel-driven most-significant-first decimal digit accumulation. -/
def natDigitsFuel : Nat → Nat → List Char → List Char
  | 0, _, acc => acc
  | fuel + 1, n, acc =>
    if n < 10 then digitChar n :: acc
    else natDigitsFuel fuel (n / 10) (digitChar (n % 10) :: acc)

/-- Decimal notation of a natural number (at least one digit). -/
def natRepr (n : Nat) : String := ⟨natDigitsFuel (n + 1) n []⟩

/-- Rendering of a duration of `cs` centiseconds as seconds with exactly two
decimal places, modelling the %.2f conversion applied to elapsed.Seconds(). -/
def fmtTwoDec (cs : Nat) : String :=
  natRepr (cs / 100) ++ "." ++ ⟨[digitChar (cs % 100 / 10), digitChar (cs % 10)]⟩

/-! ## Data model -/

/-- One entry of the static check catalogue: display name, shell command,
static failure hint (the anonymous struct in runChecks). -/
structure CheckSpec where
  name : String
  cmd : String
  errHint : String
deriving DecidableEq

/-- Structure to hold system check results (CheckResult in main.go). -/
structure CheckResult where
  name : String
  status : String
  message : String
deriving DecidableEq

/-- Outcome of one external command invocation: whether
exec.Command("bash", "-c", cmd).CombinedOutput() returned a non-nil error
(non-zero exit or failure to start), and the combined output. -/
structure ExecOutcome where
  err : Bool
  out : String

/-! ## Check runner -/

/-- runCommand: classify by the error of CombinedOutput; both branches
return the combined output trimmed of surrounding whitespace. -/
def runCommand (o : ExecOutcome) : String × String :=
  if o.err then ("Failed", strTrim o.out) else ("Passed", strTrim o.out)

/-- fmt.Sprintf("%s (%.2fs)", msg, elapsed.Seconds()) with the elapsed time
given in centiseconds. -/
def sprintfResultMessage (msg : String) (cs : Nat) : String :=
  msg ++ " (" ++ fmtTwoDec cs ++ "s)"

/-- The body of one worker goroutine of runChecks: run the command through
the environment, wrap the failure hint around the message on failure, and
append the elapsed duration. -/
def workerResult (env : String → ExecOutcome) (dur : CheckSpec → Nat)
    (c : CheckSpec) : CheckResult :=
  let r := runCommand (env c.cmd)
  let status := r.1
  let msg := if status = "Failed" then c.errHint ++ " (" ++ r.2 ++ ")" else r.2
  { name := c.name, status := status,
    message := sprintfResultMessage msg (dur c) }

/-- The static check catalogue hard-coded in runChecks. -/
def checks : List CheckSpec :=
  [⟨"System Update", "sudo apt update -y 2>/dev/null | grep -v \x27WARNING\x27",
    "Failed to fetch updates. Ensure apt is installed and configured."⟩,
   ⟨"Kernel Check", "uname -r", "Kernel information not available."⟩,
   ⟨"UFW Firewall Status", "sudo ufw status | grep -q active",
    "UFW firewall is inactive or not installed."⟩,
   ⟨"SSH Security", "grep -q \x27PermitRootLogin no\x27 /etc/ssh/sshd_config",
    "Root login over SSH is permitted. Update sshd_config."⟩,
   ⟨"Disk Usage", "df -h", "Disk usage information could not be retrieved."⟩,
   ⟨"Memory Usage", "free -m", "Memory usage data is unavailable."⟩,
   ⟨"Service Status (rsyslog)", "systemctl is-active --quiet rsyslog",
    "rsyslog service is not active."⟩,
   ⟨"Cron Jobs", "crontab -l", "No cron jobs found for the current user."⟩,
   ⟨"TLS Support", "openssl ciphers -v | grep -q \x27TLSv1.2\\|TLSv1.3\x27",
    "TLSv1.2 or TLSv1.3 support is missing."⟩,
   ⟨"Password Policy", "grep -q \x27minlen\x27 /etc/security/pwquality.conf",
    "Password policy not enforced. Check pwquality.conf."⟩]

/-- The mutex-guarded fan-out/fan-in of runChecks over an arbitrary
catalogue: the workers race freely, so the order in which they append to the
shared slice is an arbitrary permutation of the catalogue indices, supplied
here as the parameter `order`. -/
def runChecksWith (cat : List CheckSpec) (env : String → ExecOutcome)
    (dur : CheckSpec → Nat) (order : List (Fin cat.length)) : List CheckResult :=
  order.map fun i => workerResult env dur (cat.get i)

/-- runChecks: the fan-out/fan-in over the hard-coded catalogue. -/
def runChecks (env : String → ExecOutcome) (dur : CheckSpec → Nat)
    (order : List (Fin checks.length)) : List CheckResult :=
  runChecksWith checks env dur order

/-! ## Presentation layer -/

/-- Spinner animation frames. -/
def spinnerFrames : List String :=
  ["⠋", "⠙", "⠹", "⠸", "⠼", "⠴", "⠦", "⠧", "⠇", "⠏"]

/-- The bubbletea model: collected results, quit flag, spinner frame index. -/
structure Model where
  results : List CheckResult
  quitting : Bool
  spinner : Nat
deriving DecidableEq

/-- The zero value model{} the program starts with. -/
def initModel : Model := { results := [], quitting := false, spinner := 0 }

/-- The messages the Update switch distinguishes: checkResultsMsg,
tea.KeyMsg (carrying its String()), tickMsg, quitMsg, and `other` standing
for every message type that falls through to the default return
(for example the window-size message the framework delivers at startup). -/
inductive Msg where
  | checkResults (rs : List CheckResult)
  | key (k : String)
  | tick
  | quit
  | other
deriving DecidableEq

/-- Is the message the batch-ready checkResultsMsg. -/
def Msg.isCheckResults : Msg → Bool
  | .checkResults _ => true
  | _ => false

/-- The commands Update and Init can return: the Init closure running
runChecks, the closure emitting quitMsg, tea.Tick, tea.Quit, or nil. -/
inductive Cmd where
  | noCmd
  | runChecksCmd
  | emitQuitCmd
  | tickCmd
  | quitProgram
deriving DecidableEq

/-- Update: the event-loop transition of the model (main.go lines 117-140).
A key other than "q" falls out of the switch to the trailing tea.Tick
return, as does any unhandled message type. -/
def Update (m : Model) (msg : Msg) : Model × Cmd :=
  match msg with
  | .checkResults rs => ({ m with results := rs }, .noCmd)
  | .key k => if k = "q" then (m, .emitQuitCmd) else (m, .tickCmd)
  | .tick => ({ m with spinner := (m.spinner + 1) % spinnerFrames.length }, .tickCmd)
  | .quit => ({ m with quitting := true }, .quitProgram)
  | .other => (m, .tickCmd)

/-- The commands returned by Init: the single closure that runs runChecks
and returns checkResultsMsg. -/
def InitCmds : List Cmd := [Cmd.runChecksCmd]

/-- The message each command delivers to the loop when it completes
(nil commands and tea.Quit deliver none). -/
def execCmd (env : String → ExecOutcome) (dur : CheckSpec → Nat)
    (order : List (Fin checks.length)) : Cmd → Option Msg
  | .runChecksCmd => some (.checkResults (runChecks env dur order))
  | .emitQuitCmd => some .quit
  | .tickCmd => some .tick
  | .noCmd => none
  | .quitProgram => none

/-- formatMessage: split the stored message at " (", and when the content
before the timing suffix spans several lines, blank the line at index zero,
prefix eight spaces to every later line, and append the timing after the
joined lines (main.go lines 142-162). -/
def formatMessage (msg : String) : String :=
  match strSplitOn msg " (" with
  | [content, rest] =>
    let timing := "(" ++ rest
    if strContainsChar content '\n' then
      let lines := strSplitOn content "\n"
      let indentedLines := "" :: (lines.drop 1).map fun l => "        " ++ l
      String.intercalate "\n" indentedLines ++ " " ++ timing
    else
      content ++ " " ++ timing
  | _ => msg

/-- Which screen View selects: the quitting notice, the loading spinner at a
frame index, or the result report (tabular, or JSON when the flag is set). -/
inductive Screen where
  | exiting
  | loading (spinnerIndex : Nat)
  | report (results : List CheckResult) (json : Bool)
deriving DecidableEq

/-- Is the screen the loading indicator. -/
def Screen.isLoading : Screen → Bool
  | .loading _ => true
  | _ => false

/-- Is the screen the result report (tabular or JSON). -/
def Screen.isReport : Screen → Bool
  | .report _ _ => true
  | _ => false

/-- View at the branch level (main.go lines 164-205): quitting first, then
the spinner while results are empty, otherwise the report, rendered as JSON
exactly when outputFormat is "json".  The text of each screen (styling,
tab alignment) is abstracted away; the spinner screen records the index
used for the spinnerFrames lookup. -/
def View (m : Model) (outputFormat : String) : Screen :=
  if m.quitting then .exiting
  else if m.results.length = 0 then .loading m.spinner
  else .report m.results (outputFormat == "json")

/-- Models reachable from the zero model by any sequence of messages. -/
inductive Reachable : Model → Prop where
  | base : Reachable initModel
  | step (m : Model) (msg : Msg) (h : Reachable m) : Reachable (Update m msg).1

/-- Models reachable from the zero model before any checkResultsMsg has
been delivered. -/
inductive ReachableNoBatch : Model → Prop where
  | base : ReachableNoBatch initModel
  | step (m : Model) (msg : Msg) (hmsg : msg.isCheckResults = false)
      (h : ReachableNoBatch m) : ReachableNoBatch (Update m msg).1

/-! ## Entry point -/

/-- The outcome of main: either the fatal log call with its exit code, or
the program is constructed (with the zero model) and run with the selected
output format. -/
inductive MainOutcome where
  | fatal (exitCode : Nat) (msg : String)
  | run (m : Model) (outputFormat : String)
deriving DecidableEq

/-- The outputFormat assignment of main: "json" exactly when there is more
than one element of os.Args and the element at index one is "--json". -/
def selectOutputFormat (args : List String) : String :=
  if args.length > 1 && (args.getD 1 "" == "--json") then "json" else ""

/-- main (lines 207-222): set the output format from the arguments, then
gate on the effective uid, then construct the zero model and run it. -/
def main (args : List String) (euid : Nat) : MainOutcome :=
  let fmt := selectOutputFormat args
  if euid ≠ 0 then .fatal 1 "This program must be run as root."
  else .run initModel fmt

/-! ## Concrete helpers for witnesses and counterexamples -/

/-- The single catalogue entry of the spec scenario: command exiting zero
with empty output, empty hint. -/
def specA : CheckSpec := ⟨"A", "true", ""⟩

/-- The catalogue entry of the failing spec scenario. -/
def specB : CheckSpec := ⟨"B", "false", "hint-B"⟩

/-- An environment in which every command exits zero with empty output. -/
def env0 : String → ExecOutcome := fun _ => ⟨false, ""⟩

/-- An environment in which every command fails with output "boom". -/
def envF : String → ExecOutcome := fun _ => ⟨true, "boom"⟩

/-- A duration map assigning one centisecond to every check. -/
def dur0 : CheckSpec → Nat := fun _ => 1

/-- The duration pattern asserted by the spec scenario,
regular expression ^\(\d+\.\d\d s\)$ : an opening parenthesis at the very
start, one or more digits, a dot, two digits, a space, the letter s, a
closing parenthesis at the very end. -/
def claimedDurationPattern (s : String) : Bool :=
  match s.data with
  | '(' :: rest =>
    (!(rest.takeWhile Char.isDigit).isEmpty) &&
    (match rest.dropWhile Char.isDigit with
     | ['.', a, b, ' ', 's', ')'] => a.isDigit && b.isDigit
     | _ => false)
  | _ => false

/-- The duration pattern the code actually produces for an empty body:
a space, an opening parenthesis, one or more digits, a dot, two digits,
the letter s immediately, a closing parenthesis at the very end. -/
def actualDurationPattern (s : String) : Bool :=
  match s.data with
  | ' ' :: '(' :: rest =>
    (!(rest.takeWhile Char.isDigit).isEmpty) &&
    (match rest.dropWhile Char.isDigit with
     | ['.', a, b, 's', ')'] => a.isDigit && b.isDigit
     | _ => false)
  | _ => false

/-! ## Helper lemmas -/

/-- Appending strings appends their character lists. -/
theorem strData_append (s t : String) : (s ++ t).data = s.data ++ t.data := rfl

/-- Closed form of the worker body: the status comes from the invocation
error, and the failure hint is wrapped around the trimmed output exactly on
failure, before the duration suffix is appended. -/
theorem workerResult_eq (env : String → ExecOutcome) (dur : CheckSpec → Nat) (c : CheckSpec) :
    workerResult env dur c =
      { name := c.name,
        status := if (env c.cmd).err then "Failed" else "Passed",
        message := sprintfResultMessage
          (if (env c.cmd).err then c.errHint ++ " (" ++ strTrim (env c.cmd).out ++ ")"
           else strTrim (env c.cmd).out) (dur c) } := by
  cases he : (env c.cmd).err <;> simp [workerResult, runCommand, he]

/-- A worker carries the name of its catalogue entry unchanged. -/
theorem workerResult_name (env : String → ExecOutcome) (dur : CheckSpec → Nat) (c : CheckSpec) :
    (workerResult env dur c).name = c.name := rfl

/-- The character of a decimal digit value is a digit character. -/
theorem digitChar_isDigit (d : Nat) (h : d < 10) : (digitChar d).isDigit = true := by
  interval_cases d <;> decide

/-- Digit accumulation over a digit accumulator yields only digit
characters. -/
theorem natDigitsFuel_digits (fuel n : Nat) (acc : List Char)
    (hacc : ∀ c ∈ acc, c.isDigit = true) :
    ∀ c ∈ natDigitsFuel fuel n acc, c.isDigit = true := by
  induction fuel generalizing n acc with
  | zero => exact hacc
  | succ fuel ih =>
    simp only [natDigitsFuel]
    split
    · intro c hc
      rcases List.mem_cons.mp hc with hc | hc
      · subst hc; exact digitChar_isDigit _ (by omega)
      · exact hacc c hc
    · refine ih _ _ ?_
      intro c hc
      rcases List.mem_cons.mp hc with hc | hc
      · subst hc; exact digitChar_isDigit _ (Nat.mod_lt _ (by norm_num))
      · exact hacc c hc

/-- Digit accumulation with positive fuel or a non-empty accumulator never
produces the empty list. -/
theorem natDigitsFuel_ne_nil (fuel n : Nat) (acc : List Char)
    (h : fuel ≠ 0 ∨ acc ≠ []) : natDigitsFuel fuel n acc ≠ [] := by
  induction fuel generalizing n acc with
  | zero =>
    rcases h with h | h
    · exact absurd rfl h
    · exact h
  | succ fuel ih =>
    simp only [natDigitsFuel]
    split
    · simp
    · exact ih _ _ (Or.inr (by simp))

/-- takeWhile and dropWhile of a digit run followed by a dot. -/
theorem takeWhile_digits_append (ds tail : List Char) (h : ∀ c ∈ ds, c.isDigit = true) :
    (ds ++ '.' :: tail).takeWhile Char.isDigit = ds ∧
    (ds ++ '.' :: tail).dropWhile Char.isDigit = '.' :: tail := by
  induction ds with
  | nil => exact ⟨by simp [List.takeWhile], by simp [List.dropWhile]⟩
  | cons c cs ih =>
    have hc : c.isDigit = true := h c (List.mem_cons_self _ _)
    have ihh := ih fun a ha => h a (List.mem_cons_of_mem _ ha)
    constructor
    · simpa [List.takeWhile_cons, hc] using ihh.1
    · simpa [List.dropWhile_cons, hc] using ihh.2

/-- For every elapsed duration, the message of a passed check with empty
output matches the pattern the code produces: a leading space, an opening
parenthesis, digits, a dot, two digits, the letter s, a closing
parenthesis. -/
theorem fmtTwoDec_pattern (cs : Nat) :
    actualDurationPattern (" (" ++ fmtTwoDec cs ++ "s)") = true := by
  have hdata : (" (" ++ fmtTwoDec cs ++ "s)").data
      = ' ' :: '(' :: (natDigitsFuel (cs / 100 + 1) (cs / 100) [] ++
          '.' :: digitChar (cs % 100 / 10) :: digitChar (cs % 10) :: 's' :: ')' :: []) := by
    simp [strData_append, fmtTwoDec, natRepr]
  have hds : ∀ c ∈ natDigitsFuel (cs / 100 + 1) (cs / 100) [], c.isDigit = true :=
    natDigitsFuel_digits _ _ _ (by simp)
  have htk := takeWhile_digits_append _
    (digitChar (cs % 100 / 10) :: digitChar (cs % 10) :: 's' :: ')' :: []) hds
  have hne : natDigitsFuel (cs / 100 + 1) (cs / 100) [] ≠ [] :=
    natDigitsFuel_ne_nil _ _ _ (Or.inl (by omega))
  simp only [actualDurationPattern, hdata, htk.1, htk.2]
  have h1 := digitChar_isDigit (cs % 100 / 10) (by omega)
  have h2 := digitChar_isDigit (cs % 10) (Nat.mod_lt _ (by norm_num))
  simp [h1, h2, List.isEmpty_eq_true, hne]

/-- Before any checkResultsMsg has been delivered, the stored result slice
is still empty: no other message writes to it. -/
theorem noBatch_results_eq_nil (m : Model) (h : ReachableNoBatch m) : m.results = [] := by
  induction h with
  | base => rfl
  | step m msg hmsg hr ih =>
    cases msg with
    | checkResults rs => simp [Msg.isCheckResults] at hmsg
    | key k => simp only [Update]; split <;> simpa using ih
    | tick => simpa [Update] using ih
    | quit => simpa [Update] using ih
    | other => simpa [Update] using ih

/-! ## Claim theorems -/

/-- Claim C1: the catalogue has exactly ten entries, and for every
environment, duration map and completion order (any permutation of the
catalogue indices), the batch returned by runChecks has exactly ten
entries whose names are exactly the ten catalogue names, with no
duplicates and no omissions. -/
theorem runChecks_complete (env : String → ExecOutcome) (dur : CheckSpec → Nat)
    (order : List (Fin checks.length))
    (h : order.Perm (List.finRange checks.length)) :
    checks.length = 10 ∧
    (runChecks env dur order).length = checks.length ∧
    ((runChecks env dur order).map CheckResult.name).Perm (checks.map CheckSpec.name) ∧
    ((runChecks env dur order).map CheckResult.name).Nodup := by
  have hmap : (runChecks env dur order).map CheckResult.name
      = order.map fun i => (checks.get i).name := by
    simp only [runChecks, runChecksWith, List.map_map]
    rfl
  have hfin : (List.finRange checks.length).map (fun i => (checks.get i).name)
      = checks.map CheckSpec.name := by
    have h2 : (fun (i : Fin checks.length) => (checks.get i).name)
        = CheckSpec.name ∘ checks.get := rfl
    rw [h2, ← List.map_map, List.finRange_map_get]
  have hperm : ((runChecks env dur order).map CheckResult.name).Perm
      (checks.map CheckSpec.name) := by
    rw [hmap, ← hfin]
    exact h.map _
  refine ⟨rfl, ?_, hperm, hperm.nodup_iff.mpr (by decide)⟩
  have hlen := h.length_eq
  simp only [runChecks, runChecksWith, List.length_map, List.length_finRange] at *
  exact hlen

/-- Witness for claim C1 at a concrete completion order (the reverse of the
catalogue order) and a concrete environment. -/
theorem runChecks_complete_witness :
    checks.length = 10 ∧
    (runChecks env0 dur0 (List.finRange checks.length).reverse).length = checks.length ∧
    ((runChecks env0 dur0 (List.finRange checks.length).reverse).map CheckResult.name).Perm
      (checks.map CheckSpec.name) ∧
    ((runChecks env0 dur0 (List.finRange checks.length).reverse).map CheckResult.name).Nodup :=
  runChecks_complete env0 dur0 _ (List.reverse_perm _)

/-- Claim C2: runCommand classifies every execution by the process outcome:
a zero exit status (no invocation error) always yields "Passed", any error
always yields "Failed", no other status value is ever produced, and the
mapping is never reversed. -/
theorem runCommand_status (o : ExecOutcome) :
    (runCommand o).1 = (if o.err then "Failed" else "Passed") ∧
    ((runCommand o).1 = "Passed" ∨ (runCommand o).1 = "Failed") := by
  cases h : o.err <;> simp [runCommand, h]

/-- Claim C3: for every result a runChecks worker produces, the message is
the body followed by the parenthesized elapsed duration in seconds with two
decimal places; on "Failed" the body is the static failure hint followed by
the trimmed captured output in parentheses, on "Passed" it is only the
trimmed captured output. -/
theorem workerResult_message (env : String → ExecOutcome) (dur : CheckSpec → Nat)
    (c : CheckSpec) :
    (workerResult env dur c).message =
      (if (env c.cmd).err then c.errHint ++ " (" ++ strTrim (env c.cmd).out ++ ")"
       else strTrim (env c.cmd).out) ++ " (" ++ fmtTwoDec (dur c) ++ "s)" ∧
    ((workerResult env dur c).status = "Failed" →
      (workerResult env dur c).message =
        c.errHint ++ " (" ++ strTrim (env c.cmd).out ++ ")" ++ " (" ++ fmtTwoDec (dur c) ++ "s)") ∧
    ((workerResult env dur c).status = "Passed" →
      (workerResult env dur c).message =
        strTrim (env c.cmd).out ++ " (" ++ fmtTwoDec (dur c) ++ "s)") := by
  rw [workerResult_eq]
  cases he : (env c.cmd).err <;>
    simp [sprintfResultMessage, he]

/-- Witness for claim C3: a concrete failing check whose message carries
the hint, the trimmed output and the duration suffix. -/
theorem workerResult_message_witness :
    (workerResult envF dur0 specB).message = "hint-B (boom) (0.01s)" := by
  have h := (workerResult_message envF dur0 specB).2.1 (by decide)
  exact h.trans (by decide)

/-- Counterexample to claim C4: for the single-check catalogue
[{"A", "true", ""}] the batch is one passed result with empty body, but its
message " (0.01s)" does not match the claimed pattern ^\(\d+\.\d\d s\)$ :
the message starts with a space, and no space precedes the letter s. -/
theorem single_check_claimed_pattern_cex :
    runChecksWith [specA] env0 dur0 [(0 : Fin 1)] = [⟨"A", "Passed", " (0.01s)"⟩] ∧
    claimedDurationPattern " (0.01s)" = false := by
  refine ⟨by decide, by decide⟩

/-- Claim C4 as amended: for the single-check catalogue [{"A", "true", ""}]
and any elapsed duration, the batch is exactly one result named "A" with
status "Passed" whose message is a space followed by the parenthesized
duration - digits, a dot, two digits and the letter s immediately before
the closing parenthesis. -/
theorem single_check_passed_message (dur : CheckSpec → Nat) :
    runChecksWith [specA] env0 dur [(0 : Fin 1)] =
      [⟨"A", "Passed", " (" ++ fmtTwoDec (dur specA) ++ "s)"⟩] ∧
    actualDurationPattern (" (" ++ fmtTwoDec (dur specA) ++ "s)") = true :=
  ⟨rfl, fmtTwoDec_pattern _⟩

/-- Counterexample to claim C5: formatting the two-line message
"a\nb (0.10s)" yields "\n        b (0.10s)", whose first line is empty -
the first line content "a" is discarded, not preserved - and whose timing
suffix sits on the second (last) line, not on the first. -/
theorem formatMessage_cex :
    formatMessage "a\nb (0.10s)" = "\n        b (0.10s)" ∧
    strSplitOn "\n        b (0.10s)" "\n" = ["", "        b (0.10s)"] := by
  refine ⟨by decide, by decide⟩

/-- Claim C5 as amended: whenever the stored message splits at " (" into
exactly a multi-line body and a timing part, the rendered message consists
of an empty first line, the continuation lines each indented by eight
spaces, and the parenthesized timing suffix attached after the last line. -/
theorem formatMessage_multiline (msg content rest : String)
    (h : strSplitOn msg " (" = [content, rest])
    (hc : strContainsChar content '\n' = true) :
    formatMessage msg =
      String.intercalate "\n"
        ("" :: ((strSplitOn content "\n").drop 1).map fun l => "        " ++ l)
        ++ " " ++ ("(" ++ rest) := by
  simp only [formatMessage, h, hc]
  rfl

/-- Witness for the amended claim C5 at the concrete two-line message. -/
theorem formatMessage_multiline_witness :
    formatMessage "a\nb (0.10s)" =
      String.intercalate "\n"
        ("" :: ((strSplitOn "a\nb" "\n").drop 1).map fun l => "        " ++ l)
        ++ " " ++ ("(" ++ "0.10s)") :=
  formatMessage_multiline "a\nb (0.10s)" "a\nb" "0.10s)" (by decide) (by decide)

/-- Counterexample to claim C6: the state reached by pressing "q" and
processing the resulting quit message before any batch has arrived is
reachable without a checkResultsMsg, yet View renders the exit notice
there, not the loading indicator. -/
theorem view_before_batch_cex :
    ReachableNoBatch (Update ((Update initModel (Msg.key "q")).1) Msg.quit).1 ∧
    (View (Update ((Update initModel (Msg.key "q")).1) Msg.quit).1 "").isLoading = false := by
  constructor
  · exact ReachableNoBatch.step _ _ rfl (ReachableNoBatch.step _ _ rfl ReachableNoBatch.base)
  · decide

/-- Claim C6 as amended: in every state reachable before the batch-ready
message has been delivered, View never renders the report (tabular or
JSON); every render is the loading indicator at the current spinner frame,
or the exit notice once a quit has been processed. -/
theorem view_before_batch (m : Model) (fmt : String) (h : ReachableNoBatch m) :
    (View m fmt).isReport = false ∧
    (View m fmt = Screen.exiting ∨ View m fmt = Screen.loading m.spinner) := by
  have hres := noBatch_results_eq_nil m h
  by_cases hq : m.quitting = true
  · simp [View, hq, Screen.isReport]
  · simp [View, hq, hres, Screen.isReport]

/-- Witness for the amended claim C6 at the initial model. -/
theorem view_before_batch_witness :
    (View initModel "").isReport = false ∧
    (View initModel "" = Screen.exiting ∨ View initModel "" = Screen.loading initModel.spinner) :=
  view_before_batch initModel "" ReachableNoBatch.base

/-- Counterexample to claim C7: Init does not schedule the first tick; its
only command is the one running the checks. -/
theorem init_no_tick_cex : Cmd.tickCmd ∉ InitCmds ∧ Cmd.runChecksCmd ∈ InitCmds := by
  refine ⟨by decide, by decide⟩

/-- Claim C7 as amended: Init launches the check runner asynchronously as
its only command, and that command delivers the batch-ready message
carrying the runChecks output; the first Tick is scheduled by the default
branch of Update when the first unhandled message arrives. -/
theorem init_cmds_amended :
    InitCmds = [Cmd.runChecksCmd] ∧
    (∀ env dur order, execCmd env dur order Cmd.runChecksCmd
        = some (Msg.checkResults (runChecks env dur order))) ∧
    (∀ m : Model, (Update m Msg.other).2 = Cmd.tickCmd) :=
  ⟨rfl, fun _ _ _ => rfl, fun _ => rfl⟩

/-- Counterexample to claim C8: with the arguments ["kumo", "x", "--json"]
the switch --json is passed but the structured mode is not selected,
because only the argument at index one is inspected; at index one the
switch does select it. -/
theorem json_flag_position_cex :
    selectOutputFormat ["kumo", "x", "--json"] = "" ∧
    "--json" ∈ ["kumo", "x", "--json"] ∧
    selectOutputFormat ["kumo", "--json"] = "json" := by
  refine ⟨by decide, by decide, by decide⟩

/-- Claim C8 as amended: the structured mode is selected exactly when the
argument at index one is --json; the selection depends only on that
argument, so every other argument is accepted and ignored, never validated
or rejected. -/
theorem selectOutputFormat_amended (args : List String) :
    selectOutputFormat args = (if args.get? 1 = some "--json" then "json" else "") ∧
    (selectOutputFormat args = "json" ∨ selectOutputFormat args = "") := by
  cases args with
  | nil => exact ⟨by simp [selectOutputFormat], Or.inr (by simp [selectOutputFormat])⟩
  | cons a t =>
    cases t with
    | nil => exact ⟨by simp [selectOutputFormat], Or.inr (by simp [selectOutputFormat])⟩
    | cons b t2 =>
      by_cases hb : b = "--json" <;>
        simp [selectOutputFormat, hb]

/-- Claim C9: with a non-zero effective uid, main terminates fatally with
exit code 1 and the diagnostic, before constructing any presentation state
and before launching any check; with uid zero the gate does not fire and
the zero model is constructed and run with the selected output format. -/
theorem main_privilege_gate (args : List String) (euid : Nat) :
    (euid ≠ 0 → main args euid = MainOutcome.fatal 1 "This program must be run as root.") ∧
    (euid = 0 → main args euid = MainOutcome.run initModel (selectOutputFormat args)) := by
  constructor
  · intro h; simp [main, h]
  · intro h; simp [main, h]

/-- Witness for claim C9 at a concrete non-root uid and at root. -/
theorem main_privilege_gate_witness :
    main ["kumo"] 1000 = MainOutcome.fatal 1 "This program must be run as root." ∧
    main ["kumo"] 0 = MainOutcome.run initModel (selectOutputFormat ["kumo"]) :=
  ⟨(main_privilege_gate ["kumo"] 1000).1 (by decide),
   (main_privilege_gate ["kumo"] 0).2 rfl⟩

/-- Claim C10: in every model state reachable from the initial model via
Update, the spinner index is strictly below the number of spinner frames,
so the spinnerFrames lookup View performs while loading is in bounds. -/
theorem spinner_index_in_bounds (m : Model) (h : Reachable m) :
    m.spinner < spinnerFrames.length := by
  induction h with
  | base => decide
  | step m msg hr ih =>
    cases msg with
    | checkResults rs => simpa [Update] using ih
    | key k => simp only [Update]; split <;> simpa using ih
    | tick =>
      simp only [Update]
      exact Nat.mod_lt _ (by decide)
    | quit => simpa [Update] using ih
    | other => simpa [Update] using ih

/-- Witness for claim C10 at the initial model. -/
theorem spinner_index_in_bounds_witness : initModel.spinner < spinnerFrames.length :=
  spinner_index_in_bounds initModel Reachable.base

end Kumo
